import Mathlib

/-!
Verification of the event-processing core of the SBOM ingestion service
(transactional outbox dispatcher and code-scan result consumer).

The Go sources are shallowly embedded: the `outbox_events` table is a list of
rows, each SQL statement becomes a pure function on that list, machine times
are natural numbers of nanoseconds (or broken-down UTC instants where only
formatting matters), and every external call made by the consumer handler is
an oracle input.  JSON (de)serialisation of opaque payloads is abstracted by a
small value type `JVal`; no verified property inspects serialised payload
bytes.
-/

/-- Nanoseconds in one second (Go `time.Second`). -/
def goSecond : Nat := 1000000000

/-- Status column of an `outbox_events` row. -/
inductive OutboxStatus where
  | pending
  | processing
  | retrying
  | sent
  | failed
deriving DecidableEq, Repr

/-- A UTC instant in broken-down form, as used where Go formats a `time.Time`.
`UTC()` is the identity in this representation. -/
structure GoTime where
  year : Nat
  month : Nat
  day : Nat
  hour : Nat
  minute : Nat
  sec : Nat
  nanos : Nat
deriving DecidableEq, Repr

/-- Abstract JSON value for event payloads built by the service.  Nesting is
flattened to the shapes the service actually constructs. -/
inductive JVal where
  | str (s : String)
  | num (n : Int)
  | bool (b : Bool)
  | time (t : GoTime)
  | strList (l : List String)
deriving DecidableEq, Repr

/-- The `interface{}` payload of an `OutboxMessage`: raw bytes, a
`json.RawMessage`, or a marshallable value (`toJSONBytes` cases). -/
inductive PayloadV where
  | bytes (b : String)
  | rawMessage (b : String)
  | value (fields : List (String × JVal))
deriving DecidableEq, Repr

/-- Go `OutboxMessage` (kafka_manager.go): what gets persisted before dispatch. -/
structure OutboxMessage where
  Topic : String
  EventType : String
  Key : String
  Payload : Option PayloadV
  Headers : Option (List (String × String))
  DedupKey : String
deriving DecidableEq, Repr

/-- Left-pad the decimal representation of `n` with zeros to width `w`. -/
def padZeros (w : Nat) (n : Nat) : String :=
  let s := toString n
  String.mk (List.replicate (w - s.length) '0') ++ s

/-- Drop trailing '0' characters (Go time-format fraction trimming). -/
def trimTrailingZeros (s : String) : String :=
  String.mk ((s.toList.reverse.dropWhile (fun c => c = '0')).reverse)

/-- The fractional-second part Go prints for `.999999999`: empty when the
nanosecond field is zero, otherwise a dot followed by the 9-digit field with
trailing zeros removed. -/
def nanoFraction (nanos : Nat) : String :=
  if nanos = 0 then "" else "." ++ trimTrailingZeros (padZeros 9 nanos)

/-- Go `t.UTC().Format(time.RFC3339Nano)` for a broken-down UTC instant. -/
def formatRFC3339Nano (t : GoTime) : String :=
  padZeros 4 t.year ++ "-" ++ padZeros 2 t.month ++ "-" ++ padZeros 2 t.day ++
    "T" ++ padZeros 2 t.hour ++ ":" ++ padZeros 2 t.minute ++ ":" ++
    padZeros 2 t.sec ++ nanoFraction t.nanos ++ "Z"

/-- Render an abstract JSON value.  This abstracts Go `json.Marshal`; no
theorem inspects the rendered text. -/
def renderJVal : JVal → String
  | .str s => "\x22" ++ s ++ "\x22"
  | .num n => toString n
  | .bool b => toString b
  | .time t => "\x22" ++ formatRFC3339Nano t ++ "\x22"
  | .strList l => "[" ++ String.intercalate "," l ++ "]"

/-- Render a flat JSON object. -/
def renderJObj (fields : List (String × JVal)) : String :=
  "\x7b" ++ String.intercalate ","
    (fields.map (fun p => "\x22" ++ p.1 ++ "\x22:" ++ renderJVal p.2)) ++ "\x7d"

/-- Go `toJSONBytes` (kafka_manager.go): nil payload is an error, byte forms
pass through, other values are marshalled. -/
def toJSONBytes : Option PayloadV → Except String String
  | none => .error "payload cannot be nil"
  | some (.bytes b) => .ok b
  | some (.rawMessage b) => .ok b
  | some (.value fields) => .ok (renderJObj fields)

/-- Go `nullableString`: empty string becomes SQL NULL. -/
def nullableString (s : String) : Option String :=
  if s = "" then none else some s

/-- Go `nullableJSON`: empty or "null" bytes become SQL NULL. -/
def nullableJSON (b : String) : Option String :=
  if b = "" ∨ b = "null" then none else some b

/-- Marshalling of the `Headers` map; `nil` maps marshal to "null". -/
def marshalHeaders : Option (List (String × String)) → String
  | none => "null"
  | some l =>
      "\x7b" ++ String.intercalate ","
        (l.map (fun p => "\x22" ++ p.1 ++ "\x22:\x22" ++ p.2 ++ "\x22")) ++ "\x7d"

/-- A row of the `outbox_events` table.  Timestamps are nanoseconds since the
epoch. -/
structure OutboxRow where
  id : String
  topic : String
  event_key : Option String
  event_type : Option String
  payload : String
  headers : Option String
  status : OutboxStatus
  attempts : Nat
  next_retry_at : Option Nat
  last_error : Option String
  dedup_key : Option String
  created_at : Nat
  updated_at : Nat
deriving DecidableEq, Repr

/-- The row built by the INSERT in `EnqueueOutboxEvent`: status `pending`,
attempts 0, `NULLIF(dedup_key, '')`, timestamps defaulted to now. -/
def newOutboxRow (msg : OutboxMessage) (payloadBytes : String) (now : Nat)
    (newId : String) : OutboxRow :=
  { id := newId
    topic := msg.Topic
    event_key := nullableString msg.Key
    event_type := nullableString msg.EventType
    payload := payloadBytes
    headers := nullableJSON (marshalHeaders msg.Headers)
    status := .pending
    attempts := 0
    next_retry_at := none
    last_error := none
    dedup_key := nullableString msg.DedupKey
    created_at := now
    updated_at := now }

/-- Semantics of `INSERT ... ON CONFLICT (dedup_key) DO NOTHING`: a non-null
`dedup_key` matching an existing row affects zero rows and leaves the table
unchanged; otherwise one row is appended.  Returns (rows affected, table). -/
def outboxInsert (row : OutboxRow) (t : List OutboxRow) :
    Nat × List OutboxRow :=
  match row.dedup_key with
  | some k => if t.any (fun r => r.dedup_key = some k) then (0, t)
              else (1, t ++ [row])
  | none => (1, t ++ [row])

/-- Go `EnqueueOutboxEvent` (kafka_manager.go): validate, serialise, insert
with dedup.  Returns (result, rows affected, table); zero affected rows with a
dedup key is a silent success. -/
def EnqueueOutboxEvent (msg : OutboxMessage) (now : Nat) (newId : String)
    (t : List OutboxRow) : Except String Unit × Nat × List OutboxRow :=
  if msg.Topic = "" ∨ msg.Payload = none then
    (.error "invalid outbox message", 0, t)
  else
    match toJSONBytes msg.Payload with
    | .error e => (.error e, 0, t)
    | .ok payloadBytes =>
        let (rows, t') := outboxInsert (newOutboxRow msg payloadBytes now newId) t
        (.ok (), rows, t')

/-- Go `maxOutboxAttempts`. -/
def maxOutboxAttempts : Nat := 12

/-- Go `exponentialDelay` (kafka_manager.go): `2^attempt` seconds capped at
five minutes, in nanoseconds. -/
def exponentialDelay (attempt : Nat) : Nat :=
  let delay := 2 ^ attempt * goSecond
  if delay > 5 * 60 * goSecond then 5 * 60 * goSecond else delay

/-- The per-row effect of the UPDATE in `markFailed`: the status and delay are
computed from the dispatcher's claimed `evt.Attempts`, while the attempts
column is incremented in SQL from its stored value. -/
def markFailedUpdate (now : Nat) (evtAttempts : Nat) (errStr : String)
    (r : OutboxRow) : OutboxRow :=
  let status := if evtAttempts + 1 ≥ maxOutboxAttempts then OutboxStatus.failed
                else OutboxStatus.retrying
  let delay := if evtAttempts + 1 ≥ maxOutboxAttempts then 0
               else exponentialDelay (evtAttempts + 1)
  { r with
    status := status
    attempts := r.attempts + 1
    next_retry_at := if delay > 0 then some (now + delay) else none
    last_error := some errStr
    updated_at := now }

/-- Go `markFailed` over the table: update the claimed row by id. -/
def markFailed (evtID : String) (evtAttempts : Nat) (errStr : String)
    (now : Nat) (t : List OutboxRow) : List OutboxRow :=
  t.map (fun r => if r.id = evtID then markFailedUpdate now evtAttempts errStr r else r)

/-- Go `markSent` over the table: sent, clear retry state and error. -/
def markSent (evtID : String) (now : Nat) (t : List OutboxRow) : List OutboxRow :=
  t.map (fun r =>
    if r.id = evtID then
      { r with status := .sent, updated_at := now, next_retry_at := none,
               last_error := none }
    else r)

/-- The WHERE clause of `claimPendingEvents`: status `pending` or `retrying`
and `next_retry_at` NULL or not after `now`. -/
def eligibleOutbox (now : Nat) (r : OutboxRow) : Bool :=
  (r.status = OutboxStatus.pending ∨ r.status = OutboxStatus.retrying : Bool) &&
    (match r.next_retry_at with
     | none => true
     | some ts => ts ≤ now : Bool)

/-- `ORDER BY created_at` comparison. -/
def createdLE (a b : OutboxRow) : Prop := a.created_at ≤ b.created_at

instance : DecidableRel createdLE :=
  fun a b => inferInstanceAs (Decidable (a.created_at ≤ b.created_at))

instance : IsTotal OutboxRow createdLE :=
  ⟨fun a b => Nat.le_total a.created_at b.created_at⟩

instance : IsTrans OutboxRow createdLE :=
  ⟨fun _ _ _ h h₂ => Nat.le_trans h h₂⟩

/-- The dispatcher's batch size (`StartOutboxDispatcher`). -/
def outboxBatchSize : Nat := 20

/-- The rows the claiming SELECT returns: eligible, not row-locked by another
transaction (`FOR UPDATE SKIP LOCKED`), ordered by `created_at`, first
`batchSize` (`LIMIT`). -/
def claimSelect (batchSize : Nat) (locked : List String) (now : Nat)
    (t : List OutboxRow) : List OutboxRow :=
  (List.insertionSort createdLE
    (t.filter (fun r => eligibleOutbox now r && !(locked.contains r.id)))).take
    batchSize

/-- Go `claimPendingEvents` (kafka_manager.go), as the net effect of its
transaction: select the batch; when empty commit and return the empty batch,
otherwise set the selected ids to `processing` with `updated_at = now`.
Returns (claimed batch, table after commit). -/
def claimPendingEvents (batchSize : Nat) (locked : List String) (now : Nat)
    (t : List OutboxRow) : List OutboxRow × List OutboxRow :=
  let events := claimSelect batchSize locked now t
  if events.isEmpty then ([], t)
  else
    (events,
     t.map (fun r =>
       if events.any (fun e => e.id = r.id) then
         { r with status := .processing, updated_at := now }
       else r))

/-- The complete set of writes the repository performs on `outbox_events`
(kafka_manager.go is the only file touching the table). -/
inductive OutboxOp where
  | enq (msg : OutboxMessage) (now : Nat) (newId : String)
  | claim (locked : List String) (now : Nat)
  | sent (id : String) (now : Nat)
  | fail (id : String) (evtAttempts : Nat) (err : String) (now : Nat)

/-- Apply one repository operation to the table. -/
def applyOp : OutboxOp → List OutboxRow → List OutboxRow
  | .enq msg now newId, t => (EnqueueOutboxEvent msg now newId t).2.2
  | .claim locked now, t => (claimPendingEvents outboxBatchSize locked now t).2
  | .sent id now, t => markSent id now t
  | .fail id a e now, t => markFailed id a e now t

/-- How one operation transforms an existing row of `t` (insertions are
covered by `opInserts`). -/
def opRow (op : OutboxOp) (t : List OutboxRow) (r : OutboxRow) : OutboxRow :=
  match op with
  | .enq _ _ _ => r
  | .claim locked now =>
      let events := claimSelect outboxBatchSize locked now t
      if events.any (fun e => e.id = r.id) then
        { r with status := .processing, updated_at := now }
      else r
  | .sent id now =>
      if r.id = id then
        { r with status := .sent, updated_at := now, next_retry_at := none,
                 last_error := none }
      else r
  | .fail id a e now =>
      if r.id = id then markFailedUpdate now a e r else r

/-- The rows one operation appends to the table. -/
def opInserts (op : OutboxOp) (t : List OutboxRow) : List OutboxRow :=
  match op with
  | .enq msg now newId =>
      if msg.Topic = "" ∨ msg.Payload = none then []
      else
        match toJSONBytes msg.Payload with
        | .error _ => []
        | .ok payloadBytes =>
            let row := newOutboxRow msg payloadBytes now newId
            match row.dedup_key with
            | some k => if t.any (fun r => r.dedup_key = some k) then [] else [row]
            | none => [row]
  | _ => []

/-- Go `KafkaTopic` (kafka_producer.go). -/
def KafkaTopic : String := "sbom-events"

/-- Classification carried by `processingError` (code_scan_consumer.go):
`isPermanentProcessingError` is true exactly for the permanent constructor. -/
inductive PErr where
  | permanent (msg : String)
  | transient (msg : String)
deriving DecidableEq, Repr

/-- Go `isPermanentProcessingError`. -/
def isPermanentProcessingError : PErr → Bool
  | .permanent _ => true
  | .transient _ => false

/-- Go `retryBackoff` state; `attempt` is a Go `int`, durations are
nanoseconds. The `rand.Rand` source is kept outside the state and modelled as
a draw passed to `nextDelay`. -/
structure retryBackoff where
  attempt : Int
  base : Int
  max : Int
deriving DecidableEq, Repr

/-- Go `newRetryBackoff`: non-positive base defaults to one second, max is
raised to at least base. -/
def newRetryBackoff (base max : Int) : retryBackoff :=
  let b := if base ≤ 0 then (goSecond : Int) else base
  let m := if max < b then b else max
  { attempt := 0, base := b, max := m }

/-- The jitter window of `retryBackoff.jitter`: half the base, with a 50ms
fallback when that is not positive. -/
def jitterWindow (r : retryBackoff) : Int :=
  let w := r.base / 2
  if w ≤ 0 then 50000000 else w

/-- A draw of Go `rand.Int63n(jitterWindow)` is any value in
`[0, jitterWindow)`. -/
def validJitterDraw (r : retryBackoff) (draw : Int) : Prop :=
  0 ≤ draw ∧ draw < jitterWindow r

/-- Go `retryBackoff.nextDelay`: clamp a negative attempt to zero, take
`base · 2^min(attempt,5)` capped at `max`, add the jitter draw, increment the
attempt.  Returns (delay, new state). -/
def nextDelay (r : retryBackoff) (draw : Int) : Int × retryBackoff :=
  let a := if r.attempt < 0 then 0 else r.attempt
  let delay₀ := r.base * 2 ^ (min a 5).toNat
  let delay := if delay₀ > r.max then r.max else delay₀
  (delay + draw, { r with attempt := a + 1 })

/-- One entry of `evt.Manifests` as the handler projects it: the string-typed
`name` and `content` keys (missing or non-string keys project to ""). -/
structure Manifest where
  name : String
  content : String
deriving DecidableEq, Repr

/-- One entry of `evt.Findings`; only presence and count are inspected by the
verified properties, the fields feed `BuildSBOMFromFindings`. -/
structure Finding where
  check_id : Option String
  path : Option String
  severity : Option String
  message : Option String
deriving DecidableEq, Repr

/-- Go `CodeScanEvent` (code_scan_consumer.go), the normalised internal form. -/
structure CodeScanEvent where
  EventType : String
  ProjectID : Int
  Project : String
  Findings : List Finding
  Manifests : List Manifest
  Timestamp : GoTime
deriving DecidableEq, Repr

/-- Go `codeScanEnvelopePayload`. -/
structure EnvPayload where
  eventType : String
  projectID : Int
  project : String
  projectName : String
  findings : List Finding
  manifests : List Manifest
deriving DecidableEq, Repr

/-- Go `eventEnvelope` as decoded from valid JSON: `dataPresent` is
`len(env.Data) > 0`, `dataDecode` the result of unmarshalling `env.Data`. -/
structure Envelope where
  type : String
  projectName : String
  occurredAt : GoTime
  dataPresent : Bool
  dataDecode : Except String EnvPayload
deriving Repr

/-- The legacy top-level payload shape. -/
structure LegacyPayload where
  eventType : String
  projectID : Int
  project : String
  projectName : String
  findings : List Finding
  manifests : List Manifest
  timestamp : GoTime
deriving DecidableEq, Repr

/-- An inbound broker message value, classified by how `json.Unmarshal`
treats it: not valid JSON (both unmarshals fail), or valid JSON with the
envelope-shape and legacy-shape unmarshal results (`none` = that unmarshal
returned an error, e.g. a type mismatch). -/
inductive RawMessage where
  | invalidJSON
  | json (env : Option Envelope) (legacy : Option LegacyPayload)

/-- Go `strings.TrimSpace` (list-based so the kernel can evaluate it). -/
def goTrim (s : String) : String :=
  String.mk
    (((s.toList.dropWhile Char.isWhitespace).reverse.dropWhile
        Char.isWhitespace).reverse)

/-- Go `strings.ToUpper` (list-based so the kernel can evaluate it). -/
def goToUpper (s : String) : String :=
  String.mk (s.toList.map Char.toUpper)

/-- Go `strings.ReplaceAll(s, ".", "_")`: the pattern is a single character,
so a character map is exact. -/
def goReplaceDots (s : String) : String :=
  String.mk (s.toList.map (fun c => if c = '.' then '_' else c))

/-- Go `normalizeEventType`: first non-empty of the trimmed candidates,
upper-cased with '.' mapped to '_'. -/
def normalizeEventType (primary fallback : String) : String :=
  let c := goTrim primary
  let c := if c = "" then goTrim fallback else c
  goReplaceDots (goToUpper c)

/-- The legacy branch of `decodeCodeScanEvent`: a failed legacy unmarshal is a
permanent "invalid JSON payload" error, otherwise normalise. -/
def decodeLegacy : Option LegacyPayload → Except PErr CodeScanEvent
  | none => .error (.permanent "invalid JSON payload")
  | some l =>
      .ok { EventType := normalizeEventType l.eventType ""
            ProjectID := l.projectID
            Project := if l.project = "" then l.projectName else l.project
            Findings := l.findings
            Manifests := l.manifests
            Timestamp := l.timestamp }

/-- Go `decodeCodeScanEvent`: try the envelope shape first (taken when the
unmarshal succeeded with non-empty `type` and non-empty `data`), falling back
to the legacy shape. -/
def decodeCodeScanEvent (raw : RawMessage) : Except PErr CodeScanEvent :=
  match raw with
  | .invalidJSON => .error (.permanent "invalid JSON payload")
  | .json envOpt legacyOpt =>
      match envOpt with
      | some env =>
          if env.type ≠ "" ∧ env.dataPresent then
            match env.dataDecode with
            | .error e => .error (.permanent ("invalid envelope data: " ++ e))
            | .ok payload =>
                let projectName :=
                  if goTrim payload.project ≠ "" then goTrim payload.project
                  else if goTrim payload.projectName ≠ "" then
                    goTrim payload.projectName
                  else goTrim env.projectName
                let eventType := normalizeEventType payload.eventType env.type
                let eventType := if eventType = "" then "CODE_SCAN_DONE" else eventType
                .ok { EventType := eventType
                      ProjectID := payload.projectID
                      Project := projectName
                      Findings := payload.findings
                      Manifests := payload.manifests
                      Timestamp := env.occurredAt }
          else decodeLegacy legacyOpt
      | none => decodeLegacy legacyOpt

/-- Go `validateCodeScanEvent`: zero project id, blank project, or blank
event type are rejected, in that order. -/
def validateCodeScanEvent (evt : CodeScanEvent) : Option String :=
  if evt.ProjectID = 0 then some "missing project_id"
  else if goTrim evt.Project = "" then some "missing project name"
  else if goTrim evt.EventType = "" then some "missing event_type"
  else none

/-- Observable calls the scan handler makes against the database and outbox. -/
inductive Effect where
  | warnEnqueued (m : OutboxMessage)
  | usageChecked (orgID : Int) (resource : String) (amount : Nat)
  | sbomUpserted (projectID : Int) (project manifest source : String)
  | batchEnqueued (m : OutboxMessage)
  | releaseInvoked (orgID : Int) (resource : String) (reserved succeeded : Nat)
  | usageReverted (orgID : Int) (resource : String) (amount : Int)
deriving DecidableEq, Repr

/-- Go `BuildSBOMFromFindings`: minimal CycloneDX document synthesised from
findings. -/
def BuildSBOMFromFindings (findings : List Finding) : List (String × JVal) :=
  [("bomFormat", .str "CycloneDX"), ("specVersion", .str "1.4"),
   ("components", .strList (findings.map (fun f => f.check_id.getD "")))]

/-- Go `ReleaseUnusedUsage` (usage.go): revert only a positive unused
remainder; errors from `revert_usage` are logged, not surfaced. -/
def ReleaseUnusedUsage (orgID : Int) (resource : String)
    (reserved succeeded : Nat) : List Effect :=
  let remaining : Int := (reserved : Int) - (succeeded : Int)
  if remaining ≤ 0 then [] else [.usageReverted orgID resource remaining]

/-- The handler's deferred compensation: the invocation of
`ReleaseUnusedUsage` followed by its own effects. -/
def deferredRelease (orgID : Int) (reserved succeeded : Nat) : List Effect :=
  Effect.releaseInvoked orgID "sbom_upload" reserved succeeded ::
    ReleaseUnusedUsage orgID "sbom_upload" reserved succeeded

/-- The outbox message `publishKafkaWarning` enqueues (no dedup key). -/
def warningEvent (eventType project : String) (projectID : Int) (msg : String)
    (now : GoTime) : OutboxMessage :=
  { Topic := KafkaTopic
    EventType := eventType
    Key := "project-" ++ toString projectID
    Payload := some (.value
      [("type", .str eventType), ("project", .str project),
       ("project_id", .num projectID), ("message", .str msg),
       ("timestamp", .time now)])
    Headers := none
    DedupKey := "" }

/-- The outbox message `queueSBOMBatchEvent` enqueues: topic `sbom-events`,
event type `sbom.batch_created`, key `project-<id>`, dedup key
`sbom-batch:<project_id>:<timestamp RFC3339 nanos>`. -/
def queueSBOMBatchMessage (evt : CodeScanEvent) (orgID : Int)
    (codeFindingsCount : Nat) (records : List String) (now : GoTime) :
    OutboxMessage :=
  { Topic := KafkaTopic
    EventType := "sbom.batch_created"
    Key := "project-" ++ toString evt.ProjectID
    Payload := some (.value
      [("type", .str "sbom.batch_created"), ("project", .str evt.Project),
       ("project_id", .num evt.ProjectID), ("organization_id", .num orgID),
       ("source", .str "project_scan"),
       ("code_findings_count", .num codeFindingsCount),
       ("project_scan_quota_consumed", .bool true), ("timestamp", .time now),
       ("sbom_records", .strList records)])
    Headers := none
    DedupKey := "sbom-batch:" ++ toString evt.ProjectID ++ ":" ++
      formatRFC3339Nano evt.Timestamp }

/-- Step 2 of `handleCodeScanDone`: the number of SBOM slots to reserve — the
manifests with non-empty content, or 1 for the findings-fallback case. -/
def handleToCreate (evt : CodeScanEvent) : Nat :=
  let c := (evt.Manifests.filter (fun m => m.content ≠ "")).length
  if c = 0 then 1 else c

/-- Outcome of the `projects` organization lookup. -/
inductive LookupResult where
  | found (orgID : Int)
  | noRows
  | dbError (msg : String)

/-- Oracle for every external call `handleCodeScanDone` makes: the wall
clock, the organization lookup, `CheckAndConsumeUsage` (allowed, message),
`ParseManifest` per manifest, `UpsertSBOM` per (manifest name, data), the
fallback upsert, and the batch `EnqueueOutboxEvent` outcome. -/
structure HandleOracle where
  now : GoTime
  orgLookup : LookupResult
  quota : Except String (Bool × String)
  parse : Manifest → Except String String
  upsert : String → String → Except String String
  fallbackUpsert : Except String String
  enqueueBatch : Except String Unit

/-- The manifest-generation loop of `handleCodeScanDone` (step 4): skip empty
content, remember the manifest name, parse then upsert, counting successes
and collecting created ids.  Parse or upsert failure is logged and skipped.
Returns (last manifest name, successful, created ids, effects). -/
def processManifests (o : HandleOracle) (evt : CodeScanEvent) :
    String × Nat × List String × List Effect :=
  evt.Manifests.foldl
    (fun st m =>
      let (mn, succ, created, effs) := st
      if m.content = "" then (mn, succ, created, effs)
      else
        match o.parse m with
        | .error _ => (m.name, succ, created, effs)
        | .ok data =>
            match o.upsert m.name data with
            | .error _ => (m.name, succ, created, effs)
            | .ok idNew =>
                (m.name, succ + 1, created ++ [idNew],
                 effs ++ [.sbomUpserted evt.ProjectID evt.Project m.name
                            "auto-code-scan"]))
    ("", 0, [], [])

/-- Go `handleCodeScanDone` (code_scan_consumer.go): organization lookup,
quota gate, per-manifest generation, findings fallback, batch enqueue, with
the deferred `ReleaseUnusedUsage` appended on every exit after the quota was
granted.  Returns (result, effect trace). -/
def handleCodeScanDone (o : HandleOracle) (evt : CodeScanEvent) :
    Except PErr Unit × List Effect :=
  match o.orgLookup with
  | .dbError m => (.error (.transient ("load org id: " ++ m)), [])
  | .noRows =>
      (.error (.permanent ("could not determine project organization for project "
          ++ toString evt.ProjectID)),
       [.warnEnqueued (warningEvent "sbom.org_lookup_failed" evt.Project
          evt.ProjectID
          ("Could not determine project organization for project "
            ++ toString evt.ProjectID) o.now)])
  | .found orgID =>
      let toCreate := handleToCreate evt
      let checkEff := Effect.usageChecked orgID "sbom_upload" toCreate
      match o.quota with
      | .error m =>
          (.error (.transient m),
           [checkEff, .warnEnqueued (warningEvent "sbom.limit_check_failed"
              evt.Project evt.ProjectID ("Usage check failed: " ++ m) o.now)])
      | .ok (allowed, msg) =>
          if !allowed then
            (.ok (),
             [checkEff, .warnEnqueued (warningEvent "sbom.limit_reached"
                evt.Project evt.ProjectID msg o.now)])
          else
            let reserved := toCreate
            let (manifestName, succ₀, created₀, genEffs) := processManifests o evt
            if created₀.isEmpty && !evt.Findings.isEmpty then
              match o.fallbackUpsert with
              | .error m =>
                  (.error (.transient m),
                   checkEff :: genEffs ++ deferredRelease orgID reserved succ₀)
              | .ok idNew =>
                  let succ := succ₀ + 1
                  let created := created₀ ++ [idNew]
                  let effs := genEffs ++
                    [.sbomUpserted evt.ProjectID evt.Project manifestName
                       "auto-code-scan"]
                  let batchMsg := queueSBOMBatchMessage evt orgID
                    evt.Findings.length created o.now
                  match o.enqueueBatch with
                  | .error m =>
                      (.error (.transient m),
                       checkEff :: effs ++ [.batchEnqueued batchMsg] ++
                         deferredRelease orgID reserved succ)
                  | .ok _ =>
                      (.ok (),
                       checkEff :: effs ++ [.batchEnqueued batchMsg] ++
                         deferredRelease orgID reserved succ)
            else
              let batchMsg := queueSBOMBatchMessage evt orgID
                evt.Findings.length created₀ o.now
              match o.enqueueBatch with
              | .error m =>
                  (.error (.transient m),
                   checkEff :: genEffs ++ [.batchEnqueued batchMsg] ++
                     deferredRelease orgID reserved succ₀)
              | .ok _ =>
                  (.ok (),
                   checkEff :: genEffs ++ [.batchEnqueued batchMsg] ++
                     deferredRelease orgID reserved succ₀)

/-- Result of `processCodeScanMessage`, instrumented with whether
`handleCodeScanDone` was reached. -/
structure ProcessResult where
  result : Except PErr Unit
  handlerInvoked : Bool
  effects : List Effect

/-- Go `processCodeScanMessage`: decode, validate (failures become permanent
errors), skip unexpected event types with success, otherwise run the
handler. -/
def processCodeScanMessage (o : HandleOracle) (raw : RawMessage) :
    ProcessResult :=
  match decodeCodeScanEvent raw with
  | .error e => { result := .error e, handlerInvoked := false, effects := [] }
  | .ok evt =>
      match validateCodeScanEvent evt with
      | some m =>
          { result := .error (.permanent m), handlerInvoked := false,
            effects := [] }
      | none =>
          if evt.EventType ≠ "CODE_SCAN_DONE" then
            { result := .ok (), handlerInvoked := false, effects := [] }
          else
            let (res, effs) := handleCodeScanDone o evt
            { result := res, handlerInvoked := true, effects := effs }

/-- Broker-side actions of the consumer loop for one fetched message. -/
inductive ConsumerEffect where
  | dlqWrite (ok : Bool)
  | commit
  | sleepRetry
deriving DecidableEq, Repr

/-- Go `publishCodeScanDLQ`: attempt the DLQ write; a write failure is only
logged, nothing is returned to the caller. -/
def publishCodeScanDLQ (writeOk : Bool) : List ConsumerEffect :=
  [.dlqWrite writeOk]

/-- One iteration of the consumer's per-message loop in
`StartCodeScanConsumer`: a permanent error goes to the DLQ and the offset is
committed regardless of the DLQ write outcome; a transient error sleeps and
retries the same message without committing; success commits.  The Bool is
true when the loop breaks (the message is done). -/
def consumerHandleResult (res : Except PErr Unit) (dlqWriteOk : Bool) :
    List ConsumerEffect × Bool :=
  match res with
  | .error e =>
      if isPermanentProcessingError e then
        (publishCodeScanDLQ dlqWriteOk ++ [.commit], true)
      else ([.sleepRetry], false)
  | .ok _ => ([.commit], true)

/-- Count the SBOM upserts in an effect trace. -/
def countUpserts (effs : List Effect) : Nat :=
  effs.countP (fun e => match e with
    | .sbomUpserted _ _ _ _ => true
    | _ => false)

/-- Count the `ReleaseUnusedUsage` invocations in an effect trace. -/
def countReleaseInvoked (effs : List Effect) : Nat :=
  effs.countP (fun e => match e with
    | .releaseInvoked _ _ _ _ => true
    | _ => false)

/-- Count the warning enqueues with the given event type. -/
def countWarnings (eventType : String) (effs : List Effect) : Nat :=
  effs.countP (fun e => match e with
    | .warnEnqueued m => m.EventType = eventType
    | _ => false)

/-- The serialised bytes of a non-nil payload. -/
def payloadBytes : PayloadV → String
  | .bytes b => b
  | .rawMessage b => b
  | .value fields => renderJObj fields

theorem toJSONBytes_some (p : PayloadV) :
    toJSONBytes (some p) = .ok (payloadBytes p) := by
  cases p <;> rfl

theorem EnqueueOutboxEvent_eq (msg : OutboxMessage) (now : Nat) (newId : String)
    (t : List OutboxRow) (hT : msg.Topic ≠ "") (p : PayloadV)
    (hp : msg.Payload = some p) :
    EnqueueOutboxEvent msg now newId t =
      (.ok (), outboxInsert (newOutboxRow msg (payloadBytes p) now newId) t) := by
  rw [EnqueueOutboxEvent, if_neg (by simp [hT, hp]), hp, toJSONBytes_some]

/-- No two rows share a non-null dedup key. -/
def atMostOnePerDedup (t : List OutboxRow) : Prop :=
  ∀ k : String, t.countP (fun r => r.dedup_key = some k) ≤ 1

theorem outboxInsert_dedup_key_present (row : OutboxRow) (t : List OutboxRow)
    (k : String) (hk : row.dedup_key = some k) :
    ((outboxInsert row t).2.any (fun r => r.dedup_key = some k)) = true := by
  unfold outboxInsert
  rw [hk]
  by_cases h : t.any (fun r => r.dedup_key = some k) = true
  · simp [h]
  · simp only [h, Bool.false_eq_true, if_neg, if_false]
    simp only [List.any_append, List.any_cons, List.any_nil, hk]
    simp

theorem outboxInsert_preserves_atMostOne (row : OutboxRow) (t : List OutboxRow)
    (h : atMostOnePerDedup t) :
    atMostOnePerDedup (outboxInsert row t).2 := by
  intro k
  unfold outboxInsert
  cases hd : row.dedup_key with
  | none =>
      simp only [List.countP_append, List.countP_cons, List.countP_nil]
      have : (decide (row.dedup_key = some k)) = false := by simp [hd]
      simp [this, h k]
  | some k₀ =>
      by_cases hany : t.any (fun r => r.dedup_key = some k₀) = true
      · simpa [hany] using h k
      · simp only [hany, Bool.false_eq_true, if_false]
        simp only [List.countP_append, List.countP_cons, List.countP_nil]
        by_cases hkk : k = k₀
        · subst hkk
          have hzero : t.countP (fun r => decide (r.dedup_key = some k)) = 0 := by
            rw [List.countP_eq_zero]
            intro a ha
            simp only [decide_eq_true_eq]
            intro hcontra
            exact hany (List.any_eq_true.mpr ⟨a, ha, by simp [hcontra]⟩)
          simp [hzero, hd]
        · have : (decide (row.dedup_key = some k)) = false := by
            simp [hd]
            exact fun hc => hkk hc.symm
          simp [this, h k]

/-- C1: two `EnqueueOutboxEvent` calls with the same non-empty dedup key: the
second insert affects zero rows, leaves the table (hence the existing row)
unchanged, and still returns success; enqueueing preserves that at most one
row exists per dedup key. -/
theorem EnqueueOutboxEvent_dedup_idempotent (m₁ m₂ : OutboxMessage)
    (t₀ : List OutboxRow) (now₁ now₂ : Nat) (id₁ id₂ : String)
    (p₁ p₂ : PayloadV)
    (hT₁ : m₁.Topic ≠ "") (hP₁ : m₁.Payload = some p₁)
    (hT₂ : m₂.Topic ≠ "") (hP₂ : m₂.Payload = some p₂)
    (hK : m₁.DedupKey ≠ "") (hKK : m₂.DedupKey = m₁.DedupKey) :
    (EnqueueOutboxEvent m₁ now₁ id₁ t₀).1 = .ok () ∧
    (EnqueueOutboxEvent m₂ now₂ id₂ (EnqueueOutboxEvent m₁ now₁ id₁ t₀).2.2).1
      = .ok () ∧
    (EnqueueOutboxEvent m₂ now₂ id₂ (EnqueueOutboxEvent m₁ now₁ id₁ t₀).2.2).2.1
      = 0 ∧
    (EnqueueOutboxEvent m₂ now₂ id₂ (EnqueueOutboxEvent m₁ now₁ id₁ t₀).2.2).2.2
      = (EnqueueOutboxEvent m₁ now₁ id₁ t₀).2.2 ∧
    (atMostOnePerDedup t₀ →
      atMostOnePerDedup
        (EnqueueOutboxEvent m₂ now₂ id₂ (EnqueueOutboxEvent m₁ now₁ id₁ t₀).2.2).2.2) := by
  rw [EnqueueOutboxEvent_eq m₁ now₁ id₁ t₀ hT₁ p₁ hP₁]
  have hrowkey : (newOutboxRow m₁ (payloadBytes p₁) now₁ id₁).dedup_key
      = some m₁.DedupKey := by
    simp [newOutboxRow, nullableString, hK]
  have hpresent := outboxInsert_dedup_key_present
    (newOutboxRow m₁ (payloadBytes p₁) now₁ id₁) t₀ m₁.DedupKey hrowkey
  rw [EnqueueOutboxEvent_eq m₂ now₂ id₂ _ hT₂ p₂ hP₂]
  have hrowkey₂ : (newOutboxRow m₂ (payloadBytes p₂) now₂ id₂).dedup_key
      = some m₁.DedupKey := by
    simp [newOutboxRow, nullableString, hKK, hK]
  have hconflict : outboxInsert (newOutboxRow m₂ (payloadBytes p₂) now₂ id₂)
      (outboxInsert (newOutboxRow m₁ (payloadBytes p₁) now₁ id₁) t₀).2
      = (0, (outboxInsert (newOutboxRow m₁ (payloadBytes p₁) now₁ id₁) t₀).2) := by
    conv_lhs => rw [outboxInsert, hrowkey₂]
    simp [hpresent]
  refine ⟨rfl, ?_, ?_, ?_, ?_⟩
  · simp [hconflict]
  · simp [hconflict]
  · simp [hconflict]
  · intro h
    simp only [hconflict]
    exact outboxInsert_preserves_atMostOne _ _ h

/-- A concrete batch message used by closed witnesses. -/
def exampleBatchMsg : OutboxMessage :=
  { Topic := "sbom-events"
    EventType := "sbom.batch_created"
    Key := "project-42"
    Payload := some (.bytes "p")
    Headers := none
    DedupKey := "sbom-batch:42:2025-01-01T00:00:00Z" }

/-- Witness for C1 at a concrete duplicate enqueue. -/
theorem EnqueueOutboxEvent_dedup_idempotent_witness :
    (EnqueueOutboxEvent exampleBatchMsg 1 "id1" []).1 = .ok () ∧
    (EnqueueOutboxEvent exampleBatchMsg 2 "id2"
      (EnqueueOutboxEvent exampleBatchMsg 1 "id1" []).2.2).1 = .ok () ∧
    (EnqueueOutboxEvent exampleBatchMsg 2 "id2"
      (EnqueueOutboxEvent exampleBatchMsg 1 "id1" []).2.2).2.1 = 0 ∧
    (EnqueueOutboxEvent exampleBatchMsg 2 "id2"
      (EnqueueOutboxEvent exampleBatchMsg 1 "id1" []).2.2).2.2
      = (EnqueueOutboxEvent exampleBatchMsg 1 "id1" []).2.2 ∧
    (atMostOnePerDedup [] →
      atMostOnePerDedup
        (EnqueueOutboxEvent exampleBatchMsg 2 "id2"
          (EnqueueOutboxEvent exampleBatchMsg 1 "id1" []).2.2).2.2) :=
  EnqueueOutboxEvent_dedup_idempotent exampleBatchMsg exampleBatchMsg [] 1 2
    "id1" "id2" (.bytes "p") (.bytes "p") (by decide) rfl (by decide) rfl
    (by decide) rfl

theorem exponentialDelay_eq_min (n : Nat) :
    exponentialDelay n = min (2 ^ n * goSecond) (5 * 60 * goSecond) := by
  simp only [exponentialDelay]
  split <;> omega

theorem exponentialDelay_pos (n : Nat) : 0 < exponentialDelay n := by
  rw [exponentialDelay_eq_min]
  have h₁ : 0 < 2 ^ n * goSecond :=
    Nat.mul_pos (Nat.pos_pow_of_pos n (by norm_num)) (by norm_num [goSecond])
  have h₂ : 0 < 5 * 60 * goSecond := by norm_num [goSecond]
  exact lt_min h₁ h₂

/-- C2: a failed publish of a row claimed with `attempts = a` increments the
attempts column, records the error and `updated_at = now`; at the attempt cap
(12) the row becomes `failed` with no retry time, otherwise `retrying` with
`next_retry_at = now + min(2^(a+1) s, 5 min)`. -/
theorem markFailed_attempts_and_backoff (now a : Nat) (err : String)
    (r : OutboxRow) (h : r.attempts = a) :
    (markFailedUpdate now a err r).attempts = a + 1 ∧
    (markFailedUpdate now a err r).last_error = some err ∧
    (markFailedUpdate now a err r).updated_at = now ∧
    (a + 1 ≥ maxOutboxAttempts →
      (markFailedUpdate now a err r).status = OutboxStatus.failed ∧
      (markFailedUpdate now a err r).next_retry_at = none) ∧
    (a + 1 < maxOutboxAttempts →
      (markFailedUpdate now a err r).status = OutboxStatus.retrying ∧
      (markFailedUpdate now a err r).next_retry_at
        = some (now + min (2 ^ (a + 1) * goSecond) (5 * 60 * goSecond))) := by
  simp only [markFailedUpdate]
  refine ⟨by simp [h], by simp, by simp, ?_, ?_⟩
  · intro hcap
    simp [if_pos hcap]
  · intro hlt
    have hnot : ¬ (a + 1 ≥ maxOutboxAttempts) := by omega
    have hpos : 0 < min (2 ^ (a + 1) * goSecond) (5 * 60 * goSecond) := by
      rw [← exponentialDelay_eq_min]
      exact exponentialDelay_pos (a + 1)
    simp only [if_neg hnot, exponentialDelay_eq_min]
    exact ⟨by trivial, by rw [if_pos hpos]⟩

/-- A concrete claimed outbox row used by closed witnesses. -/
def exampleRow : OutboxRow :=
  { id := "row1"
    topic := "sbom-events"
    event_key := some "project-42"
    event_type := some "sbom.batch_created"
    payload := "p"
    headers := none
    status := .processing
    attempts := 0
    next_retry_at := none
    last_error := none
    dedup_key := some "sbom-batch:42:2025-01-01T00:00:00Z"
    created_at := 1
    updated_at := 3 }

/-- Witness for C2 at a concrete failed first attempt. -/
theorem markFailed_attempts_and_backoff_witness :
    (markFailedUpdate 7 0 "boom" exampleRow).attempts = 0 + 1 ∧
    (markFailedUpdate 7 0 "boom" exampleRow).last_error = some "boom" ∧
    (markFailedUpdate 7 0 "boom" exampleRow).updated_at = 7 ∧
    (0 + 1 ≥ maxOutboxAttempts →
      (markFailedUpdate 7 0 "boom" exampleRow).status = OutboxStatus.failed ∧
      (markFailedUpdate 7 0 "boom" exampleRow).next_retry_at = none) ∧
    (0 + 1 < maxOutboxAttempts →
      (markFailedUpdate 7 0 "boom" exampleRow).status = OutboxStatus.retrying ∧
      (markFailedUpdate 7 0 "boom" exampleRow).next_retry_at
        = some (7 + min (2 ^ (0 + 1) * goSecond) (5 * 60 * goSecond))) :=
  markFailed_attempts_and_backoff 7 0 "boom" exampleRow rfl

theorem claimPendingEvents_fst (batchSize : Nat) (locked : List String)
    (now : Nat) (t : List OutboxRow) :
    (claimPendingEvents batchSize locked now t).1
      = claimSelect batchSize locked now t := by
  unfold claimPendingEvents
  by_cases h : (claimSelect batchSize locked now t).isEmpty
  · simp [h, List.isEmpty_iff.mp h]
  · simp [h]

/-- C3: the claiming transaction selects at most 20 rows, all eligible
(pending/retrying with due or null `next_retry_at`) and not row-locked,
ordered ascending by `created_at`; an empty match leaves the table unchanged,
otherwise exactly the selected ids get status `processing` with
`updated_at = now`. -/
theorem claimPendingEvents_spec (locked : List String) (now : Nat)
    (t : List OutboxRow) :
    (claimPendingEvents outboxBatchSize locked now t).1.length ≤ outboxBatchSize ∧
    (∀ r ∈ (claimPendingEvents outboxBatchSize locked now t).1,
      r ∈ t ∧ eligibleOutbox now r = true ∧ locked.contains r.id = false) ∧
    List.Sorted createdLE (claimPendingEvents outboxBatchSize locked now t).1 ∧
    ((claimPendingEvents outboxBatchSize locked now t).1 = [] →
      (claimPendingEvents outboxBatchSize locked now t).2 = t) ∧
    ((claimPendingEvents outboxBatchSize locked now t).1 ≠ [] →
      (claimPendingEvents outboxBatchSize locked now t).2
        = t.map (fun r =>
            if (claimPendingEvents outboxBatchSize locked now t).1.any
                 (fun e => e.id = r.id) then
              { r with status := .processing, updated_at := now }
            else r)) := by
  rw [claimPendingEvents_fst]
  refine ⟨?_, ?_, ?_, ?_, ?_⟩
  · unfold claimSelect
    rw [List.length_take]
    exact Nat.min_le_left _ _
  · intro r hr
    unfold claimSelect at hr
    have hr' := List.take_subset _ _ hr
    rw [List.mem_insertionSort] at hr'
    rw [List.mem_filter] at hr'
    refine ⟨hr'.1, ?_, ?_⟩
    · exact (Bool.and_eq_true _ _ |>.mp hr'.2).1
    · have h2 := (Bool.and_eq_true _ _ |>.mp hr'.2).2
      simpa using h2
  · unfold claimSelect
    exact List.Pairwise.sublist (List.take_sublist _ _)
      (List.sorted_insertionSort createdLE _)
  · intro hE
    unfold claimPendingEvents
    rw [if_pos (List.isEmpty_iff.mpr hE)]
  · intro hNE
    unfold claimPendingEvents
    rw [if_neg (by simpa [List.isEmpty_iff] using hNE)]

/-- A concrete eligible pending row used by closed witnesses. -/
def examplePendingRow : OutboxRow :=
  { exampleRow with id := "row2", status := .pending, next_retry_at := none }

/-- Witness for C3 on a one-row table. -/
theorem claimPendingEvents_spec_witness :
    (claimPendingEvents outboxBatchSize ["other"] 5 [examplePendingRow]).1.length
      ≤ outboxBatchSize ∧
    (∀ r ∈ (claimPendingEvents outboxBatchSize ["other"] 5 [examplePendingRow]).1,
      r ∈ [examplePendingRow] ∧ eligibleOutbox 5 r = true ∧
        (["other"] : List String).contains r.id = false) ∧
    List.Sorted createdLE
      (claimPendingEvents outboxBatchSize ["other"] 5 [examplePendingRow]).1 ∧
    ((claimPendingEvents outboxBatchSize ["other"] 5 [examplePendingRow]).1 = [] →
      (claimPendingEvents outboxBatchSize ["other"] 5 [examplePendingRow]).2
        = [examplePendingRow]) ∧
    ((claimPendingEvents outboxBatchSize ["other"] 5 [examplePendingRow]).1 ≠ [] →
      (claimPendingEvents outboxBatchSize ["other"] 5 [examplePendingRow]).2
        = [examplePendingRow].map (fun r =>
            if (claimPendingEvents outboxBatchSize ["other"] 5
                  [examplePendingRow]).1.any (fun e => e.id = r.id) then
              { r with status := .processing, updated_at := 5 }
            else r)) :=
  claimPendingEvents_spec ["other"] 5 [examplePendingRow]

instance instDecEqExceptResult {ε α : Type} [DecidableEq ε] [DecidableEq α] :
    DecidableEq (Except ε α) := fun a b =>
  match a, b with
  | .ok x, .ok y =>
      if h : x = y then .isTrue (congrArg Except.ok h)
      else .isFalse (fun hc => h (Except.ok.inj hc))
  | .error x, .error y =>
      if h : x = y then .isTrue (congrArg Except.error h)
      else .isFalse (fun hc => h (Except.error.inj hc))
  | .ok _, .error _ => .isFalse (fun hc => Except.noConfusion hc)
  | .error _, .ok _ => .isFalse (fun hc => Except.noConfusion hc)

/-- The S1 happy-path inbound event (project 42, one manifest). -/
def exEvt : CodeScanEvent :=
  { EventType := "CODE_SCAN_DONE"
    ProjectID := 42
    Project := "web"
    Findings := []
    Manifests := [{ name := "go.mod", content := "module x" }]
    Timestamp := { year := 2025, month := 1, day := 1, hour := 0, minute := 0,
                   sec := 0, nanos := 0 } }

/-- An oracle whose quota check denies the reservation. -/
def exDeniedOracle : HandleOracle :=
  { now := { year := 2025, month := 1, day := 1, hour := 0, minute := 0,
             sec := 0, nanos := 0 }
    orgLookup := .found 7
    quota := .ok (false, "monthly cap reached")
    parse := fun _ => .error "unused"
    upsert := fun _ _ => .error "unused"
    fallbackUpsert := .error "unused"
    enqueueBatch := .ok () }

/-- C4 counterexample: on a quota denial the handler returns success but
`ReleaseUnusedUsage` is never invoked — the compensation defer is registered
only after the quota check succeeds, so no release with
`reserved = toCreate, succeeded = 0` happens, contrary to the claim. -/
theorem handleCodeScanDone_denied_no_release_counterexample :
    (handleCodeScanDone exDeniedOracle exEvt).1 = .ok () ∧
    Effect.releaseInvoked 7 "sbom_upload" (handleToCreate exEvt) 0
      ∉ (handleCodeScanDone exDeniedOracle exEvt).2 ∧
    countReleaseInvoked (handleCodeScanDone exDeniedOracle exEvt).2 = 0 := by
  decide

/-- C4 (amended): when `CheckAndConsumeUsage` denies, the handler writes no
SBOM rows, enqueues exactly one `sbom.limit_reached` warning, returns success
(so the offset commits), and `ReleaseUnusedUsage` is not invoked at all. -/
theorem handleCodeScanDone_quota_denied (o : HandleOracle) (evt : CodeScanEvent)
    (orgID : Int) (msg : String)
    (hOrg : o.orgLookup = .found orgID)
    (hQ : o.quota = .ok (false, msg)) :
    (handleCodeScanDone o evt).1 = .ok () ∧
    (handleCodeScanDone o evt).2
      = [.usageChecked orgID "sbom_upload" (handleToCreate evt),
         .warnEnqueued (warningEvent "sbom.limit_reached" evt.Project
            evt.ProjectID msg o.now)] ∧
    countUpserts (handleCodeScanDone o evt).2 = 0 ∧
    countReleaseInvoked (handleCodeScanDone o evt).2 = 0 ∧
    countWarnings "sbom.limit_reached" (handleCodeScanDone o evt).2 = 1 := by
  have hfx : handleCodeScanDone o evt
      = (.ok (),
         [.usageChecked orgID "sbom_upload" (handleToCreate evt),
          .warnEnqueued (warningEvent "sbom.limit_reached" evt.Project
             evt.ProjectID msg o.now)]) := by
    unfold handleCodeScanDone
    rw [hOrg, hQ]
    simp
  refine ⟨by rw [hfx], by rw [hfx], ?_, ?_, ?_⟩
  · rw [hfx]
    rfl
  · rw [hfx]
    rfl
  · rw [hfx]
    simp [countWarnings, warningEvent]

/-- Witness for the amended C4 at the concrete denied oracle. -/
theorem handleCodeScanDone_quota_denied_witness :
    (handleCodeScanDone exDeniedOracle exEvt).1 = .ok () ∧
    (handleCodeScanDone exDeniedOracle exEvt).2
      = [.usageChecked 7 "sbom_upload" (handleToCreate exEvt),
         .warnEnqueued (warningEvent "sbom.limit_reached" exEvt.Project
            exEvt.ProjectID "monthly cap reached" exDeniedOracle.now)] ∧
    countUpserts (handleCodeScanDone exDeniedOracle exEvt).2 = 0 ∧
    countReleaseInvoked (handleCodeScanDone exDeniedOracle exEvt).2 = 0 ∧
    countWarnings "sbom.limit_reached" (handleCodeScanDone exDeniedOracle exEvt).2
      = 1 :=
  handleCodeScanDone_quota_denied exDeniedOracle exEvt 7 "monthly cap reached"
    rfl rfl

theorem validateCodeScanEvent_isSome_of (evt : CodeScanEvent)
    (h : evt.ProjectID = 0 ∨ goTrim evt.Project = "" ∨ goTrim evt.EventType = "") :
    ∃ m, validateCodeScanEvent evt = some m := by
  unfold validateCodeScanEvent
  by_cases h0 : evt.ProjectID = 0
  · exact ⟨_, by rw [if_pos h0]⟩
  · rw [if_neg h0]
    by_cases h1 : goTrim evt.Project = ""
    · exact ⟨_, by rw [if_pos h1]⟩
    · rw [if_neg h1]
      rcases h with h | h | h
      · exact absurd h h0
      · exact absurd h h1
      · exact ⟨_, by rw [if_pos h]⟩

/-- C5: message classification — a byte string that is not valid JSON yields a
permanent error; a valid JSON message whose normalised event misses
`project_id`, has a blank project, or a blank event type yields a permanent
error; a valid event with an event type other than `CODE_SCAN_DONE` returns
success without invoking the handler. -/
theorem processCodeScanMessage_classification (o : HandleOracle)
    (raw : RawMessage) :
    (processCodeScanMessage o .invalidJSON).result
      = .error (.permanent "invalid JSON payload") ∧
    (processCodeScanMessage o .invalidJSON).handlerInvoked = false ∧
    (∀ evt, decodeCodeScanEvent raw = .ok evt →
      (evt.ProjectID = 0 ∨ goTrim evt.Project = "" ∨ goTrim evt.EventType = "") →
      ∃ m, (processCodeScanMessage o raw).result = .error (.permanent m) ∧
        (processCodeScanMessage o raw).handlerInvoked = false) ∧
    (∀ evt, decodeCodeScanEvent raw = .ok evt →
      validateCodeScanEvent evt = none →
      evt.EventType ≠ "CODE_SCAN_DONE" →
      (processCodeScanMessage o raw).result = .ok () ∧
      (processCodeScanMessage o raw).handlerInvoked = false) := by
  refine ⟨rfl, rfl, ?_, ?_⟩
  · intro evt hdec hbad
    obtain ⟨m, hm⟩ := validateCodeScanEvent_isSome_of evt hbad
    refine ⟨m, ?_, ?_⟩ <;>
      · unfold processCodeScanMessage
        rw [hdec]
        dsimp only
        rw [hm]
  · intro evt hdec hval hne
    constructor <;>
      · unfold processCodeScanMessage
        rw [hdec]
        dsimp only
        rw [hval]
        dsimp only
        rw [if_pos hne]

/-- A legacy-shaped message that carries `project_id = 0`. -/
def rawBadPid : RawMessage :=
  .json none (some
    { eventType := "CODE_SCAN_DONE", projectID := 0, project := "web",
      projectName := "", findings := [], manifests := [],
      timestamp := exEvt.Timestamp })

/-- A legacy-shaped message with an unexpected event type. -/
def rawSkip : RawMessage :=
  .json none (some
    { eventType := "USER_CREATED", projectID := 42, project := "web",
      projectName := "", findings := [], manifests := [],
      timestamp := exEvt.Timestamp })

/-- The normalised event decoded from `rawBadPid`. -/
def evtBadPid : CodeScanEvent :=
  { EventType := "CODE_SCAN_DONE", ProjectID := 0, Project := "web",
    Findings := [], Manifests := [], Timestamp := exEvt.Timestamp }

/-- The normalised event decoded from `rawSkip`. -/
def evtSkip : CodeScanEvent :=
  { EventType := "USER_CREATED", ProjectID := 42, Project := "web",
    Findings := [], Manifests := [], Timestamp := exEvt.Timestamp }

/-- Witness for C5 at concrete messages of each class. -/
theorem processCodeScanMessage_classification_witness :
    (processCodeScanMessage exDeniedOracle .invalidJSON).result
      = .error (.permanent "invalid JSON payload") ∧
    (∃ m, (processCodeScanMessage exDeniedOracle rawBadPid).result
        = .error (.permanent m) ∧
      (processCodeScanMessage exDeniedOracle rawBadPid).handlerInvoked = false) ∧
    ((processCodeScanMessage exDeniedOracle rawSkip).result = .ok () ∧
      (processCodeScanMessage exDeniedOracle rawSkip).handlerInvoked = false) :=
  ⟨(processCodeScanMessage_classification exDeniedOracle .invalidJSON).1,
   (processCodeScanMessage_classification exDeniedOracle rawBadPid).2.2.1
     evtBadPid (by decide) (by decide),
   (processCodeScanMessage_classification exDeniedOracle rawSkip).2.2.2
     evtSkip (by decide) (by decide) (by decide)⟩

/-- C6: the batch event enqueued for a handled scan has topic `sbom-events`,
event type `sbom.batch_created`, key `project-<project_id>` and dedup key
`sbom-batch:<project_id>:<RFC3339Nano timestamp>`; for project 42 at
2025-01-01T00:00:00Z the dedup key is
`sbom-batch:42:2025-01-01T00:00:00Z`. -/
theorem queueSBOMBatchEvent_message_shape (evt : CodeScanEvent) (orgID : Int)
    (cnt : Nat) (records : List String) (now : GoTime) :
    (queueSBOMBatchMessage evt orgID cnt records now).Topic = "sbom-events" ∧
    (queueSBOMBatchMessage evt orgID cnt records now).EventType
      = "sbom.batch_created" ∧
    (queueSBOMBatchMessage evt orgID cnt records now).Key
      = "project-" ++ toString evt.ProjectID ∧
    (queueSBOMBatchMessage evt orgID cnt records now).DedupKey
      = "sbom-batch:" ++ toString evt.ProjectID ++ ":" ++
          formatRFC3339Nano evt.Timestamp ∧
    (evt.ProjectID = 42 →
      evt.Timestamp = { year := 2025, month := 1, day := 1, hour := 0,
                        minute := 0, sec := 0, nanos := 0 } →
      (queueSBOMBatchMessage evt orgID cnt records now).DedupKey
        = "sbom-batch:42:2025-01-01T00:00:00Z") := by
  refine ⟨rfl, rfl, rfl, rfl, ?_⟩
  intro hpid hts
  show "sbom-batch:" ++ toString evt.ProjectID ++ ":" ++
      formatRFC3339Nano evt.Timestamp = _
  rw [hpid, hts]
  decide

/-- Witness for C6 at the S1 event. -/
theorem queueSBOMBatchEvent_message_shape_witness :
    (queueSBOMBatchMessage exEvt 7 0 ["s1"] exEvt.Timestamp).Topic
      = "sbom-events" ∧
    (queueSBOMBatchMessage exEvt 7 0 ["s1"] exEvt.Timestamp).EventType
      = "sbom.batch_created" ∧
    (queueSBOMBatchMessage exEvt 7 0 ["s1"] exEvt.Timestamp).Key
      = "project-" ++ toString exEvt.ProjectID ∧
    (queueSBOMBatchMessage exEvt 7 0 ["s1"] exEvt.Timestamp).DedupKey
      = "sbom-batch:" ++ toString exEvt.ProjectID ++ ":" ++
          formatRFC3339Nano exEvt.Timestamp ∧
    (exEvt.ProjectID = 42 →
      exEvt.Timestamp = { year := 2025, month := 1, day := 1, hour := 0,
                          minute := 0, sec := 0, nanos := 0 } →
      (queueSBOMBatchMessage exEvt 7 0 ["s1"] exEvt.Timestamp).DedupKey
        = "sbom-batch:42:2025-01-01T00:00:00Z") :=
  queueSBOMBatchEvent_message_shape exEvt 7 0 ["s1"] exEvt.Timestamp

theorem opRow_of_pending (op : OutboxOp) (t : List OutboxRow) (r : OutboxRow)
    (h : (opRow op t r).status = .pending) : opRow op t r = r := by
  cases op with
  | enq msg now newId => rfl
  | claim locked now =>
      by_cases hsel : ((claimSelect outboxBatchSize locked now t).any
          (fun e => e.id = r.id)) = true
      · exfalso
        have h' : (if ((claimSelect outboxBatchSize locked now t).any
              (fun e => e.id = r.id)) = true then
            { r with status := OutboxStatus.processing, updated_at := now }
          else r).status = .pending := h
        rw [if_pos hsel] at h'
        exact OutboxStatus.noConfusion h'
      · show (if ((claimSelect outboxBatchSize locked now t).any
              (fun e => e.id = r.id)) = true then
            { r with status := OutboxStatus.processing, updated_at := now }
          else r) = r
        rw [if_neg hsel]
  | sent idArg now =>
      by_cases hid : r.id = idArg
      · exfalso
        have h' : (if r.id = idArg then
            { r with status := OutboxStatus.sent, updated_at := now,
                     next_retry_at := none, last_error := none }
          else r).status = .pending := h
        rw [if_pos hid] at h'
        exact OutboxStatus.noConfusion h'
      · show (if r.id = idArg then
            { r with status := OutboxStatus.sent, updated_at := now,
                     next_retry_at := none, last_error := none }
          else r) = r
        rw [if_neg hid]
  | fail idArg a e now =>
      by_cases hid : r.id = idArg
      · exfalso
        have h' : (if r.id = idArg then markFailedUpdate now a e r else r).status
            = .pending := h
        rw [if_pos hid] at h'
        dsimp only [markFailedUpdate] at h'
        split at h' <;> exact OutboxStatus.noConfusion h'
      · show (if r.id = idArg then markFailedUpdate now a e r else r) = r
        rw [if_neg hid]

theorem opRow_processing_ne_pending (op : OutboxOp) (t : List OutboxRow)
    (r : OutboxRow) (h : r.status = .processing) :
    (opRow op t r).status ≠ .pending := by
  intro hc
  have heq := opRow_of_pending op t r hc
  rw [heq] at hc
  rw [h] at hc
  exact OutboxStatus.noConfusion hc

theorem opInserts_last_error (op : OutboxOp) (t : List OutboxRow) :
    ∀ r' ∈ opInserts op t, r'.last_error = none := by
  intro r' hr'
  cases op with
  | enq msg now newId =>
      simp only [opInserts] at hr'
      by_cases hv : msg.Topic = "" ∨ msg.Payload = none
      · rw [if_pos hv] at hr'
        exact absurd hr' (List.not_mem_nil r')
      · rw [if_neg hv] at hr'
        cases hj : toJSONBytes msg.Payload with
        | error e =>
            rw [hj] at hr'
            exact absurd hr' (List.not_mem_nil r')
        | ok b =>
            rw [hj] at hr'
            dsimp only at hr'
            cases hd : (newOutboxRow msg b now newId).dedup_key with
            | none =>
                rw [hd] at hr'
                dsimp only at hr'
                rw [List.mem_singleton] at hr'
                rw [hr']
                rfl
            | some k =>
                rw [hd] at hr'
                dsimp only at hr'
                by_cases hany : (t.any (fun r => r.dedup_key = some k)) = true
                · rw [if_pos hany] at hr'
                  exact absurd hr' (List.not_mem_nil r')
                · rw [if_neg hany] at hr'
                  rw [List.mem_singleton] at hr'
                  rw [hr']
                  rfl
  | claim locked now => exact absurd hr' (List.not_mem_nil r')
  | sent idArg now => exact absurd hr' (List.not_mem_nil r')
  | fail idArg a e now => exact absurd hr' (List.not_mem_nil r')

theorem applyOp_decomp (op : OutboxOp) (t : List OutboxRow) :
    applyOp op t = t.map (opRow op t) ++ opInserts op t := by
  cases op with
  | enq msg now newId =>
      show (EnqueueOutboxEvent msg now newId t).2.2 = _
      have hfn : opRow (.enq msg now newId) t = fun r => r := rfl
      rw [hfn]
      have hmap : t.map (fun r => r) = t := List.map_id' t
      rw [hmap]
      simp only [EnqueueOutboxEvent, opInserts]
      by_cases hv : msg.Topic = "" ∨ msg.Payload = none
      · rw [if_pos hv, if_pos hv]
        simp
      · rw [if_neg hv, if_neg hv]
        cases hj : toJSONBytes msg.Payload with
        | error e => simp
        | ok b =>
            dsimp only
            unfold outboxInsert
            cases hd : (newOutboxRow msg b now newId).dedup_key with
            | none => rfl
            | some k =>
                dsimp only
                by_cases hany : (t.any (fun r => r.dedup_key = some k)) = true
                · rw [if_pos hany, if_pos hany]
                  simp
                · rw [if_neg hany, if_neg hany]
  | claim locked now =>
      show (claimPendingEvents outboxBatchSize locked now t).2
        = t.map (opRow (.claim locked now) t) ++ []
      rw [List.append_nil]
      simp only [claimPendingEvents]
      by_cases hE : (claimSelect outboxBatchSize locked now t).isEmpty
      · rw [if_pos hE]
        have hsel : claimSelect outboxBatchSize locked now t = [] :=
          List.isEmpty_iff.mp hE
        have hfn : opRow (.claim locked now) t = fun r =>
            if ((claimSelect outboxBatchSize locked now t).any
                (fun e => e.id = r.id)) = true then
              { r with status := OutboxStatus.processing, updated_at := now }
            else r := rfl
        rw [hfn, hsel]
        simp
      · rw [if_neg hE]
        rfl
  | sent idArg now =>
      show markSent idArg now t = t.map (opRow (.sent idArg now) t) ++ []
      rw [List.append_nil]
      rfl
  | fail idArg a e now =>
      show markFailed idArg a e now t = t.map (opRow (.fail idArg a e now) t) ++ []
      rw [List.append_nil]
      rfl

/-- C7: the repository's complete set of `outbox_events` writes (enqueue,
claim, mark-sent, mark-failed — kafka_manager.go is the only code touching the
table) contains no stale-row sweeper: no operation moves a `processing` row
back to `pending`, and no operation can introduce a pending row carrying
`last_error = 'dispatcher-crash-recovery'`; a row stranded in `processing` is
never re-queued. -/
theorem no_dispatcher_crash_recovery_sweeper (op : OutboxOp)
    (t : List OutboxRow) :
    applyOp op t = t.map (opRow op t) ++ opInserts op t ∧
    (∀ r, r.status = .processing → (opRow op t r).status ≠ .pending) ∧
    ((∀ r ∈ t, r.status = .pending →
        r.last_error ≠ some "dispatcher-crash-recovery") →
      ∀ r' ∈ applyOp op t, r'.status = .pending →
        r'.last_error ≠ some "dispatcher-crash-recovery") := by
  refine ⟨applyOp_decomp op t, fun r => opRow_processing_ne_pending op t r, ?_⟩
  intro hInv r' hr' hpend
  rw [applyOp_decomp op t] at hr'
  rcases List.mem_append.mp hr' with hm | hm
  · obtain ⟨r, hrt, hmap⟩ := List.mem_map.mp hm
    have heq : opRow op t r = r := by
      apply opRow_of_pending
      rw [hmap]
      exact hpend
    rw [← hmap, heq]
    rw [← hmap, heq] at hpend
    exact hInv r hrt hpend
  · rw [opInserts_last_error op t r' hm]
    intro hc
    exact Option.noConfusion hc

/-- Witness for C7 at a concrete claim operation over a one-row table. -/
theorem no_dispatcher_crash_recovery_sweeper_witness :
    applyOp (.claim [] 9) [exampleRow]
      = [exampleRow].map (opRow (.claim [] 9) [exampleRow])
          ++ opInserts (.claim [] 9) [exampleRow] ∧
    (∀ r, r.status = .processing →
      (opRow (.claim [] 9) [exampleRow] r).status ≠ .pending) ∧
    ((∀ r ∈ [exampleRow], r.status = .pending →
        r.last_error ≠ some "dispatcher-crash-recovery") →
      ∀ r' ∈ applyOp (.claim [] 9) [exampleRow], r'.status = .pending →
        r'.last_error ≠ some "dispatcher-crash-recovery") :=
  no_dispatcher_crash_recovery_sweeper (.claim [] 9) [exampleRow]

/-- C8 (amended): for a backoff state whose base is at least 2ns (so the
integer window `base/2` is positive) and `max ≥ base`, `nextDelay` returns
`min(max, base · 2^min(attempt,5))` plus a jitter draw lying in `[0, base/2)`,
clamps a negative attempt to 0, and increments the attempt. -/
theorem nextDelay_spec (r : retryBackoff) (draw : Int)
    (hb : 2 ≤ r.base) (hm : r.base ≤ r.max)
    (hdraw : validJitterDraw r draw) :
    (nextDelay r draw).1
      = min r.max (r.base * 2 ^ (min (max r.attempt 0) 5).toNat) + draw ∧
    0 ≤ draw ∧ 2 * draw < r.base ∧
    (nextDelay r draw).2 = { r with attempt := max r.attempt 0 + 1 } := by
  obtain ⟨hd0, hdw⟩ := hdraw
  have hwin : jitterWindow r = r.base / 2 := by
    unfold jitterWindow
    rw [if_neg (by omega)]
  rw [hwin] at hdw
  have hclamp : (if r.attempt < 0 then 0 else r.attempt) = max r.attempt 0 := by
    omega
  refine ⟨?_, hd0, by omega, ?_⟩
  · show (if r.base * 2 ^ (min (if r.attempt < 0 then 0 else r.attempt) 5).toNat
          > r.max
        then r.max
        else r.base * 2 ^ (min (if r.attempt < 0 then 0 else r.attempt) 5).toNat)
        + draw = _
    rw [hclamp]
    rcases le_or_lt (r.base * 2 ^ (min (max r.attempt 0) 5).toNat) r.max with h | h
    · rw [if_neg (not_lt.mpr h), min_eq_right h]
    · rw [if_pos h, min_eq_left h.le]
  · show ({ r with attempt := (if r.attempt < 0 then 0 else r.attempt) + 1 }
        : retryBackoff) = _
    rw [hclamp]

/-- Witness for the amended C8 at a negative attempt and the consumer-fetch
parameters (base 1s, max 30s). -/
theorem nextDelay_spec_witness :
    (2 : Int) ≤ (retryBackoff.mk (-3) goSecond (30 * goSecond)).base ∧
    validJitterDraw (retryBackoff.mk (-3) goSecond (30 * goSecond)) 17 ∧
    ((nextDelay (retryBackoff.mk (-3) goSecond (30 * goSecond)) 17).1
        = min ((30 : Int) * goSecond)
            ((goSecond : Int) *
              2 ^ (min (max (-3 : Int) 0) 5).toNat) + 17 ∧
      (0 : Int) ≤ 17 ∧ 2 * 17 < ((goSecond : Int)) ∧
      (nextDelay (retryBackoff.mk (-3) goSecond (30 * goSecond)) 17).2
        = { retryBackoff.mk (-3) goSecond (30 * goSecond) with
              attempt := max (-3 : Int) 0 + 1 }) :=
  ⟨by decide,
   ⟨by decide, by decide⟩,
   nextDelay_spec (retryBackoff.mk (-3) goSecond (30 * goSecond)) 17
     (by decide) (by decide) ⟨by decide, by decide⟩⟩

/-- C8 counterexample: with base 1ns (allowed by the claim's `b > 0`) the
integer window `base/2` is zero, the code falls back to a 50ms window, and a
legal draw of 49999999ns produces a jitter far outside `[0, b/2)`. -/
theorem nextDelay_jitter_window_counterexample :
    (0 : Int) < (retryBackoff.mk 0 1 1).base ∧
    (retryBackoff.mk 0 1 1).base ≤ (retryBackoff.mk 0 1 1).max ∧
    validJitterDraw (retryBackoff.mk 0 1 1) 49999999 ∧
    (nextDelay (retryBackoff.mk 0 1 1) 49999999).1 = 50000000 ∧
    ¬ (2 * ((nextDelay (retryBackoff.mk 0 1 1) 49999999).1
          - min (retryBackoff.mk 0 1 1).max
              ((retryBackoff.mk 0 1 1).base
                * 2 ^ (min (max (retryBackoff.mk 0 1 1).attempt 0) 5).toNat))
        < (retryBackoff.mk 0 1 1).base) := by
  refine ⟨by decide, by decide, ⟨by decide, by decide⟩, by decide, by decide⟩

/-- C9: when processing ends in a permanent error, a failed DLQ write is only
logged — `publishCodeScanDLQ` surfaces nothing — and the consumer still
commits the offset and stops retrying the message, so the poison message is
dropped. -/
theorem consumer_dlq_write_failure_still_commits (m : String) :
    publishCodeScanDLQ false = [.dlqWrite false] ∧
    consumerHandleResult (.error (.permanent m)) false
      = ([.dlqWrite false, .commit], true) ∧
    ConsumerEffect.commit
      ∈ (consumerHandleResult (.error (.permanent m)) false).1 ∧
    (consumerHandleResult (.error (.permanent m)) false).2 = true := by
  refine ⟨rfl, rfl, ?_, rfl⟩
  show ConsumerEffect.commit ∈ [ConsumerEffect.dlqWrite false, .commit]
  simp

/-- C10: `validateCodeScanEvent` rejects a decoded event whose `project_id`
is 0 with "missing project_id"; `processCodeScanMessage` turns that into a
permanent error without reaching the handler, and the consumer loop routes it
to the DLQ and commits, exactly as for an absent field. -/
theorem projectID_zero_rejected (o : HandleOracle) (raw : RawMessage)
    (evt : CodeScanEvent) (hdec : decodeCodeScanEvent raw = .ok evt)
    (hpid : evt.ProjectID = 0) :
    validateCodeScanEvent evt = some "missing project_id" ∧
    (processCodeScanMessage o raw).result
      = .error (.permanent "missing project_id") ∧
    (processCodeScanMessage o raw).handlerInvoked = false ∧
    (∀ dlqOk, consumerHandleResult (processCodeScanMessage o raw).result dlqOk
      = ([.dlqWrite dlqOk, .commit], true)) := by
  have hval : validateCodeScanEvent evt = some "missing project_id" := by
    unfold validateCodeScanEvent
    rw [if_pos hpid]
  have hres : (processCodeScanMessage o raw).result
      = .error (.permanent "missing project_id") := by
    unfold processCodeScanMessage
    rw [hdec]
    dsimp only
    rw [hval]
  have hinv : (processCodeScanMessage o raw).handlerInvoked = false := by
    unfold processCodeScanMessage
    rw [hdec]
    dsimp only
    rw [hval]
  refine ⟨hval, hres, hinv, ?_⟩
  intro dlqOk
  rw [hres]
  rfl

/-- Witness for C10 at the concrete legacy message with `project_id = 0`. -/
theorem projectID_zero_rejected_witness :
    validateCodeScanEvent evtBadPid = some "missing project_id" ∧
    (processCodeScanMessage exDeniedOracle rawBadPid).result
      = .error (.permanent "missing project_id") ∧
    (processCodeScanMessage exDeniedOracle rawBadPid).handlerInvoked = false ∧
    (∀ dlqOk,
      consumerHandleResult (processCodeScanMessage exDeniedOracle rawBadPid).result
          dlqOk
        = ([.dlqWrite dlqOk, .commit], true)) :=
  projectID_zero_rejected exDeniedOracle rawBadPid evtBadPid (by decide) rfl
